import Mathlib

/-!
Verification of the adaptive chunking and context-selection pipeline of a
Thai-language RAG chatbot, as a shallow embedding.

Strings are modelled as lists of Unicode code points (`List Char`), which
matches Python string semantics (indexing, slicing and `len` operate on
code points).  The regular expressions used by the source are specialised,
deterministic patterns (literal runs, `\s*`, `\s+`, `\d+`, fixed-width
digit groups, word boundaries); each is embedded as an executable matcher
whose greedy behaviour coincides with the backtracking engine because the
adjacent character classes are disjoint.

Sources embedded here:
  * `src/content_classifier.py` (`ContentClassifier`)
  * the query-time filtering / deduplication / truncation / context
    assembly logic of `ThaiRAGSystem.ask_question` in `src/rag_system.py`.
-/

set_option maxRecDepth 8000

namespace RagSpec

/-- Python strings are sequences of code points. -/
abbrev Str := List Char

/-- ASCII whitespace, the `\s` class as it occurs in this corpus
(space, tab, newline, carriage return, vertical tab, form feed). -/
def isSpaceChar (c : Char) : Bool :=
  c.toNat = 32 || c.toNat = 9 || c.toNat = 10 || c.toNat = 13 ||
  c.toNat = 11 || c.toNat = 12

/-- The `\d` class (ASCII digits `0`-`9`). -/
def isDigitChar (c : Char) : Bool :=
  48 ≤ c.toNat && c.toNat ≤ 57

/-- Membership in the Thai Unicode block (U+0E00 to U+0E7F). -/
def isThaiChar (c : Char) : Bool :=
  0x0E00 ≤ c.toNat && c.toNat ≤ 0x0E7F

/-- The `\w` class for the alphabets this program handles: ASCII
alphanumerics, underscore, and Thai letters (which are word characters
for Python's Unicode-aware `\b`). -/
def isWordChar (c : Char) : Bool :=
  (48 ≤ c.toNat && c.toNat ≤ 57) || (65 ≤ c.toNat && c.toNat ≤ 90) ||
  (97 ≤ c.toNat && c.toNat ≤ 122) || c.toNat = 95 || isThaiChar c

/-- A word boundary `\b` holds before a digit when the preceding
character (if any) is not a word character. -/
def nonWordOpt : Option Char → Bool
  | none => true
  | some c => !isWordChar c

/-- A word boundary `\b` holds after a digit when the following text is
empty or starts with a non-word character. -/
def endBoundaryOk : Str → Bool
  | [] => true
  | c :: _ => !isWordChar c

/-- Consume exactly `n` digit characters, returning them and the rest. -/
def takeDigits : Nat → Str → Option (Str × Str)
  | 0, l => some ([], l)
  | _ + 1, [] => none
  | n + 1, c :: l =>
    if isDigitChar c then
      match takeDigits n l with
      | some (ds, rest) => some (c :: ds, rest)
      | none => none
    else none

/-- `\s+`: at least one whitespace character, consumed greedily. -/
def spacesPlus : Str → Option Str
  | [] => none
  | c :: t => if isSpaceChar c then some (t.dropWhile isSpaceChar) else none

/-- `\d+`: at least one digit, consumed greedily. -/
def digitsPlus : Str → Option Str
  | [] => none
  | c :: t => if isDigitChar c then some (t.dropWhile isDigitChar) else none

/-- Match a literal string, returning the remaining input. -/
def litAt (lit : Str) (l : Str) : Option Str :=
  if lit.isPrefixOf l then some (l.drop lit.length) else none

/-- `re.search` position scan: does the position matcher `p` succeed at
some suffix of the input (including the empty suffix)? -/
def existsPos (p : Str → Bool) : Str → Bool
  | [] => p []
  | c :: t => p (c :: t) || existsPos p t

/-- Python's substring test `needle in hay`. -/
def containsSub (needle : Str) (hay : Str) : Bool :=
  existsPos (fun l => needle.isPrefixOf l) hay

/-- ASCII lowercasing of a string, for `re.IGNORECASE` patterns. -/
def lowerStr (l : Str) : Str := l.map Char.toLower

/-- Match literals separated by `\s*`, requiring `\s*\d+` after the last
literal.  Embeds patterns of the form `lit₁\s*lit₂\s*…\s*\d+`. -/
def litsThenDigitsAt : List Str → Str → Bool
  | [], l =>
    match digitsPlus l with
    | some _ => true
    | none => false
  | lit :: rest, l =>
    match litAt lit l with
    | some r => litsThenDigitsAt rest (r.dropWhile isSpaceChar)
    | none => false

/- Literal fragments of the source's regular expressions. -/

/-- Literal "ปี" (year word). -/
def litPi : Str := "ปี".toList

/-- Literal "ที่" (ordinal particle). -/
def litThi : Str := "ที่".toList

/-- Literal "ชั้นปี" (year-of-study). -/
def litChanPi : Str := "ชั้นปี".toList

/-- Literal "ภาค" (semester/part). -/
def litPhak : Str := "ภาค".toList

/-- Literal "การศึกษา" (education). -/
def litKanSueksa : Str := "การศึกษา".toList

/-- Literal "เทอม" (term). -/
def litThoem : Str := "เทอม".toList

/-- Literal "หน่วยกิต" (credit units). -/
def litCredit : Str := "หน่วยกิต".toList

/-- Literal "รวม" (total). -/
def litRuam : Str := "รวม".toList

/-- Literal "วัตถุประสงค์" (objective). -/
def litObjective : Str := "วัตถุประสงค์".toList

/-- Literal "เนื้อหารายวิชา" (course content). -/
def litCourseContent : Str := "เนื้อหารายวิชา".toList

/-- Literal "เนื้อหา" (content). -/
def litContent : Str := "เนื้อหา".toList

/-- Literal "ภาคผนวก" (appendix). -/
def litPhakPhanuak : Str := "ภาคผนวก".toList

/-- Lowercased literal "appendix". -/
def litAppendixLower : Str := "appendix".toList

/-- Literal "แผนที่หลักสูตร" (curriculum map). -/
def litCurriculumMapThai : Str := "แผนที่หลักสูตร".toList

/-- Lowercased literal "curriculum". -/
def litCurriculumLower : Str := "curriculum".toList

/-- Lowercased literal "map". -/
def litMapLower : Str := "map".toList

/-- Literal "เอกสารอ้างอิง" (references). -/
def litRefDoc : Str := "เอกสารอ้างอิง".toList

/-- Literal "รายชื่ออาจารย์" (list of lecturers). -/
def litTeachers : Str := "รายชื่ออาจารย์".toList

/-!
### `ContentClassifier` (src/content_classifier.py)
-/

/-- The closed content-type enumeration. -/
inductive ContentType where
  | general
  | curriculum_table
  | course_description
  | appendix
deriving DecidableEq

/-- Signal 1a of `_is_curriculum_table`: the pattern
`ปี\s*ที่\s*\d+|ชั้นปี\s*\d+` occurs in the text. -/
def hasYearMarker (t : Str) : Bool :=
  existsPos (litsThenDigitsAt [litPi, litThi]) t ||
  existsPos (litsThenDigitsAt [litChanPi]) t

/-- Signal 1b of `_is_curriculum_table`: the pattern
`ภาค\s*การศึกษา\s*ที่\s*\d+|ภาค\s*\d+|เทอม\s*\d+` occurs in the text. -/
def hasSemesterMarker (t : Str) : Bool :=
  existsPos (litsThenDigitsAt [litPhak, litKanSueksa, litThi]) t ||
  existsPos (litsThenDigitsAt [litPhak]) t ||
  existsPos (litsThenDigitsAt [litThoem]) t

/-- Does `\b\d{8}\b` match at this position? -/
def codeAt (prev : Option Char) (l : Str) : Bool :=
  nonWordOpt prev &&
    (match takeDigits 8 l with
     | some (_, rest) => endBoundaryOk rest
     | none => false)

/-- Count the positions where `\b\d{8}\b` matches, scanning with the
previous character tracked for the leading word boundary.  Because a
match is bracketed by word boundaries, two matches can never overlap, so
this position count equals the length of `re.findall(r'\b\d{8}\b', t)`. -/
def countCodes8Aux : Option Char → Str → Nat
  | _, [] => 0
  | prev, c :: t => (if codeAt prev (c :: t) then 1 else 0) + countCodes8Aux (some c) t

/-- Number of 8-digit item-code tokens in the text. -/
def countCodes8 (t : Str) : Nat := countCodes8Aux none t

/-- Signal 3 of `_is_curriculum_table`: the credit keyword occurs. -/
def hasCreditKeyword (t : Str) : Bool := containsSub litCredit t

/-- Does `รวม\s+\d+\s+หน่วยกิต` match at this position? -/
def totalPatternAt (l : Str) : Bool :=
  match litAt litRuam l with
  | some r1 =>
    match spacesPlus r1 with
    | some r2 =>
      match digitsPlus r2 with
      | some r3 =>
        match spacesPlus r3 with
        | some r4 => litCredit.isPrefixOf r4
        | none => false
      | none => false
    | none => false
  | none => false

/-- Signal 4 of `_is_curriculum_table`: an aggregate
"total N credit units" pattern occurs. -/
def hasTotalPattern (t : Str) : Bool := existsPos totalPatternAt t

/-- `ContentClassifier._is_curriculum_table`: score the four signals and
decide table-hood by `(score >= 2 and has_multiple_courses) or score >= 3`. -/
def isCurriculumTable (t : Str) : Bool :=
  let hasYearSemester := hasYearMarker t && hasSemesterMarker t
  let hasMultipleCourses := decide (3 ≤ countCodes8 t)
  let hasCredits := hasCreditKeyword t
  let hasTotal := hasTotalPattern t
  let score := hasYearSemester.toNat + hasMultipleCourses.toNat +
    hasCredits.toNat + hasTotal.toNat
  (decide (2 ≤ score) && hasMultipleCourses) || decide (3 ≤ score)

/-- `re.match(r'^\s*\d{8}\s+', text)`: leading whitespace, exactly eight
digits, then at least one whitespace character. -/
def startsWithCode (t : Str) : Bool :=
  match takeDigits 8 (t.dropWhile isSpaceChar) with
  | some (_, rest) =>
    match rest with
    | [] => false
    | c :: _ => isSpaceChar c
  | none => false

/-- Objective/content keyword test of `_is_course_description`. -/
def hasObjectiveKeyword (t : Str) : Bool :=
  containsSub litObjective t || containsSub litCourseContent t ||
  containsSub litContent (t.take 200)

/-- Does `\([A-Z][a-zA-Z\s]+\)` match at this position? -/
def engNameAt : Str → Bool
  | '(' :: c :: rest =>
    c.isUpper &&
      (let body := rest.dropWhile (fun d => d.isAlpha || isSpaceChar d)
       decide (body.length < rest.length) &&
         (match body with
          | ')' :: _ => true
          | _ => false))
  | _ => false

/-- A parenthesised English name occurs within the first 300 characters. -/
def hasEnglishName (t : Str) : Bool := existsPos engNameAt (t.take 300)

/-- `ContentClassifier._is_course_description`. -/
def isCourseDescription (t : Str) : Bool :=
  startsWithCode t && (hasObjectiveKeyword t || hasEnglishName t)

/-- Does `Curriculum\s+Map` (case-insensitively, so matched against the
lowercased text) match at this position? -/
def curriculumMapAt (l : Str) : Bool :=
  match litAt litCurriculumLower l with
  | some r1 =>
    match spacesPlus r1 with
    | some r2 => litMapLower.isPrefixOf r2
    | none => false
  | none => false

/-- The appendix keyword alternation of `_is_appendix`, with
`re.IGNORECASE` modelled by lowercasing the text (Thai letters have no
case and are unaffected). -/
def hasAppendixKeyword (t : Str) : Bool :=
  let lt := lowerStr t
  containsSub litPhakPhanuak lt || containsSub litAppendixLower lt ||
  containsSub litCurriculumMapThai lt || existsPos curriculumMapAt lt ||
  containsSub litRefDoc lt || containsSub litTeachers lt

/-- The late-page signal `page_num and page_num > 45` (Python truthiness
makes page 0 falsy, which coincides with `45 < p`). -/
def isLatePage : Option Nat → Bool
  | none => false
  | some p => decide (45 < p)

/-- `ContentClassifier._is_appendix`: three or more item codes force
false; otherwise an appendix keyword or a late page suffices. -/
def isAppendix (t : Str) (page : Option Nat) : Bool :=
  if 3 ≤ countCodes8 t then false
  else hasAppendixKeyword t || isLatePage page

/-- `ContentClassifier.classify`: the priority chain
table → course description → appendix → general. -/
def classify (t : Str) (page : Option Nat) : ContentType :=
  if isCurriculumTable t then ContentType.curriculum_table
  else if isCourseDescription t then ContentType.course_description
  else if isAppendix t page then ContentType.appendix
  else ContentType.general

/-!
### Query-time retrieval filtering and context assembly
(`ThaiRAGSystem.ask_question`, src/rag_system.py lines 288-437)
-/

/-- A retrieved fragment: its text plus the metadata fields consulted by
the query path.  `year` and `semester` are the optional string values set
by the document processor; `course_codes` is the comma-joined code string
`metadata.get("course_codes", "")`, with absence modelled as `[]`. -/
structure RagDoc where
  page_content : Str
  year : Option Str
  semester : Option Str
  course_codes : Str
deriving DecidableEq

/-- First alternative `\b(\d{4})\s*(\d{4})\b` of the question code regex,
matched at a position whose leading boundary has been checked; returns
the canonical concatenated code `group(1)+group(2)`. -/
def qCodeAlt1 (l : Str) : Option Str :=
  match takeDigits 4 l with
  | some (d1, r1) =>
    match takeDigits 4 (r1.dropWhile isSpaceChar) with
    | some (d2, r3) => if endBoundaryOk r3 then some (d1 ++ d2) else none
    | none => none
  | none => none

/-- Second alternative `\b(\d{8})\b` of the question code regex. -/
def qCodeAlt2 (l : Str) : Option Str :=
  match takeDigits 8 l with
  | some (ds, r) => if endBoundaryOk r then some ds else none
  | none => none

/-- Try both alternatives of
`\b(\d{4})\s*(\d{4})\b|\b(\d{8})\b` at one position. -/
def qCodeAt (prev : Option Char) (l : Str) : Option Str :=
  if nonWordOpt prev then
    match qCodeAlt1 l with
    | some c => some c
    | none => qCodeAlt2 l
  else none

/-- Leftmost `re.search` scan for the question code pattern. -/
def searchQCode : Option Char → Str → Option Str
  | _, [] => none
  | prev, c :: t =>
    match qCodeAt prev (c :: t) with
    | some code => some code
    | none => searchQCode (some c) t

/-- The item code parsed from the question (canonical 8-digit form), from
`re.search(r'\b(\d{4})\s*(\d{4})\b|\b(\d{8})\b', question)` plus the
`group(3)` / `group(1)+group(2)` canonicalisation. -/
def parseQuestionCode (q : Str) : Option Str := searchQCode none q

/-- Leftmost scan returning the first successful position match. -/
def searchFirst {α : Type} (p : Str → Option α) : Str → Option α
  | [] => p []
  | c :: t =>
    match p (c :: t) with
    | some x => some x
    | none => searchFirst p t

/-- Match `lit\s*(\d+)` at one position, capturing the digits. -/
def litCaptureDigitsAt (lit : Str) (l : Str) : Option Str :=
  match litAt lit l with
  | some r1 =>
    let r2 := r1.dropWhile isSpaceChar
    let ds := r2.takeWhile isDigitChar
    if ds.isEmpty then none else some ds

  | none => none

/-- Literal "ปีที่" as written contiguously in the question regex. -/
def litPiThi : Str := "ปีที่".toList

/-- Literal "ภาคการศึกษาที่" of the question semester regex. -/
def litPhakSemester : Str := "ภาคการศึกษาที่".toList

/-- `re.search(r'ปีที่\s*(\d+)', question)`: the year digits asked for. -/
def parseQuestionYear (q : Str) : Option Str :=
  searchFirst (litCaptureDigitsAt litPiThi) q

/-- `re.search(r'ภาคการศึกษาที่\s*(\d+)', question)`: the semester digits. -/
def parseQuestionSemester (q : Str) : Option Str :=
  searchFirst (litCaptureDigitsAt litPhakSemester) q

/-- Match `lit` then `\s*` then the literal digit string `ds` at one
position; embeds the interpolated searches `rf'ปีที่\s*{year_str}'` and
`rf'ภาคการศึกษาที่\s*{semester_str}'`. -/
def litSpacesLitAt (lit ds : Str) (l : Str) : Bool :=
  match litAt lit l with
  | some r => ds.isPrefixOf (r.dropWhile isSpaceChar)
  | none => false

/-- Content search for "ปีที่" followed by the queried year digits. -/
def contentHasYear (y t : Str) : Bool := existsPos (litSpacesLitAt litPiThi y) t

/-- Content search for "ภาคการศึกษาที่" followed by the queried semester. -/
def contentHasSemester (s t : Str) : Bool :=
  existsPos (litSpacesLitAt litPhakSemester s) t

/-- Pattern 2 of the code match: `first4\s+last4` at one position. -/
def codeSpacedAt (code : Str) (l : Str) : Bool :=
  match litAt (code.take 4) l with
  | some r1 =>
    match spacesPlus r1 with
    | some r2 => (code.drop 4).isPrefixOf r2
    | none => false
  | none => false

/-- Pattern 3 of the code match: `first4\s*-\s*last4` at one position. -/
def codeDashedAt (code : Str) (l : Str) : Bool :=
  match litAt (code.take 4) l with
  | some r1 =>
    match r1.dropWhile isSpaceChar with
    | '-' :: r2 => (code.drop 4).isPrefixOf (r2.dropWhile isSpaceChar)
    | _ => false
  | none => false

/-- The candidate test of the code branch: the canonical code occurs in
the fragment text contiguously, space-separated or dash-separated, or
inside the `course_codes` metadata string. -/
def docMatchesCode (code : Str) (d : RagDoc) : Bool :=
  containsSub code d.page_content ||
  existsPos (codeSpacedAt code) d.page_content ||
  existsPos (codeDashedAt code) d.page_content ||
  containsSub code d.course_codes

/-- One iteration of the metadata/content filtering loop (rag_system.py
lines 301-385), folding over the state `filtered_docs`.
`insert(0, doc)` is `d :: st`, `append(doc)` is `st ++ [d]`. -/
def filterStep (qc qy qs : Option Str) (st : List RagDoc) (d : RagDoc) :
    List RagDoc :=
  match qc with
  | some code => if docMatchesCode code d then d :: st else st
  | none =>
    match qy, qs with
    | some y, some s =>
      let metaYear := decide (d.year = some y)
      let metaSem := decide (d.semester = some s)
      let score : Nat :=
        if metaYear && metaSem then 100
        else if metaYear || metaSem then 50
        else
          let yc := contentHasYear y d.page_content
          let sc := contentHasSemester s d.page_content
          if yc && sc then 80
          else if yc || sc then 40
          else 0
      if 0 < score then (if 80 ≤ score then d :: st else st ++ [d]) else st
    | some y, none =>
      if decide (d.year = some y) || contentHasYear y d.page_content then
        st ++ [d]
      else st
    | none, some s =>
      if decide (d.semester = some s) || contentHasSemester s d.page_content then
        st ++ [d]
      else st
    | none, none => st ++ [d]

/-- The whole filtering pass over the candidate list. -/
def filterDocs (qc qy qs : Option Str) (docs : List RagDoc) : List RagDoc :=
  docs.foldl (filterStep qc qy qs) []

/-- Strip ASCII whitespace from both ends (Python `str.strip()`). -/
def stripStr (l : Str) : Str :=
  ((l.dropWhile isSpaceChar).reverse.dropWhile isSpaceChar).reverse

/-- The deduplication signature: `doc.page_content[:100].strip()`. -/
def docSig (d : RagDoc) : Str := stripStr (d.page_content.take 100)

/-- The deduplication loop with its `seen_contents` set (modelled as the
list of signatures seen so far). -/
def dedupDocs : List RagDoc → List Str → List RagDoc
  | [], _ => []
  | d :: ds, seen =>
    if seen.contains (docSig d) then dedupDocs ds seen
    else d :: dedupDocs ds (docSig d :: seen)

/-- Literal "อะไรบ้าง" (broad "what are ..." phrasing). -/
def litWhatAll : Str := "อะไรบ้าง".toList

/-- Literal "ทั้งหมด" ("all"). -/
def litAllOf : Str := "ทั้งหมด".toList

/-- The fragment-count cap: 5 for temporal or broad-scope questions,
3 otherwise (rag_system.py line 405). -/
def numChunks (q : Str) : Nat :=
  if (parseQuestionYear q).isSome || (parseQuestionSemester q).isSome ||
      containsSub litWhatAll q || containsSub litAllOf q then 5
  else 3

/-- The complete selection pipeline handed to context assembly: filter,
fall back to the unfiltered list when empty, deduplicate, truncate. -/
def selectRelevantDocs (q : Str) (docs : List RagDoc) : List RagDoc :=
  let fd := filterDocs (parseQuestionCode q) (parseQuestionYear q)
    (parseQuestionSemester q) docs
  let fd := if fd.isEmpty then docs else fd
  (dedupDocs fd []).take (numChunks q)

/-- The configured context character budget (`max_context_chars`). -/
def maxContextChars : Nat := 2000

/-- Python truthiness of `metadata.get(key)` for a string-valued field:
present and non-empty. -/
def truthyOpt : Option Str → Bool
  | none => false
  | some s => !s.isEmpty

/-- Opening piece of the metadata hint line. -/
def litHintOpen : Str := "[ปีที่ ".toList

/-- Middle piece of the metadata hint line. -/
def litHintMid : Str := " ภาคการศึกษาที่ ".toList

/-- Closing piece of the metadata hint line. -/
def litHintClose : Str := "]\n".toList

/-- The metadata hint prefixed to a fragment when both the year and the
semester fields are (truthily) present:
`f"[ปีที่ {year} ภาคการศึกษาที่ {semester}]\n"`. -/
def hintOf (d : RagDoc) : Str :=
  if truthyOpt d.year && truthyOpt d.semester then
    litHintOpen ++ d.year.getD [] ++ litHintMid ++ d.semester.getD [] ++
      litHintClose
  else []

/-- The context assembly loop (rag_system.py lines 410-431).  Each
emitted part is recorded as (fragment, hint, truncated content); the
running `total_chars` counts hint plus content characters. -/
def assembleParts : List RagDoc → Nat → List (RagDoc × Str × Str)
  | [], _ => []
  | d :: ds, total =>
    let remaining := maxContextChars - total
    if remaining = 0 then []
    else
      let content := d.page_content.take remaining
      let hint := hintOf d
      (d, hint, content) :: assembleParts ds (total + hint.length + content.length)

/-- The emitted context parts for a fragment list. -/
def contextParts (docs : List RagDoc) : List (RagDoc × Str × Str) :=
  assembleParts docs 0

/-- The inter-fragment separator of `"\n\n---\n\n".join(context_parts)`. -/
def sepStr : Str := "\n\n---\n\n".toList

/-- Join the parts with the fixed separator. -/
def joinSep : List Str → Str
  | [] => []
  | [x] => x
  | x :: xs => x ++ sepStr ++ joinSep xs

/-- The assembled context string. -/
def assembledContext (docs : List RagDoc) : Str :=
  joinSep ((contextParts docs).map (fun p => p.2.1 ++ p.2.2))

/-- Total truncated fragment-content characters of the emitted parts. -/
def partsContentLength (ps : List (RagDoc × Str × Str)) : Nat :=
  (ps.map (fun p => p.2.2.length)).sum


def tableSignals (t : Str) : List Bool :=
  [hasYearMarker t && hasSemesterMarker t, decide (3 ≤ countCodes8 t),
   hasCreditKeyword t, hasTotalPattern t]

theorem count_true_four (a b c d : Bool) :
    [a, b, c, d].count true = a.toNat + b.toNat + c.toNat + d.toNat := by
  cases a <;> cases b <;> cases c <;> cases d <;> rfl

theorem classify_eq_table_iff (t : Str) (p : Option Nat) :
    classify t p = ContentType.curriculum_table ↔ isCurriculumTable t = true := by
  unfold classify
  split_ifs with h1 h2 h3 <;> simp_all

/-- C4: the curriculum-table decision is score-based -- table iff
(score at least 2 and the item-code signal) or score at least 3, where the
score counts the four signals; and the tabular test is attempted before
the course-description and appendix tests. -/
theorem c4_table_decision (t : Str) (p : Option Nat) :
    (classify t p = ContentType.curriculum_table ↔
      (2 ≤ (tableSignals t).count true ∧ 3 ≤ countCodes8 t) ∨
        3 ≤ (tableSignals t).count true) ∧
    ((classify t p = ContentType.course_description ∨
      classify t p = ContentType.appendix) → isCurriculumTable t = false) := by
  constructor
  · rw [classify_eq_table_iff]
    unfold tableSignals
    rw [count_true_four]
    unfold isCurriculumTable
    simp only [Bool.or_eq_true, Bool.and_eq_true, decide_eq_true_eq]
  · intro h
    unfold classify at h
    split_ifs at h with h1 h2 h3 <;> simp_all

/-- C2 (amended): a text classified as curriculum_table with fewer than
3 eight-digit item-code positions must satisfy all of the other three
signals (year and semester markers, credit keyword, aggregate total). -/
theorem c2_amended (t : Str) (p : Option Nat)
    (h1 : classify t p = ContentType.curriculum_table)
    (h2 : countCodes8 t < 3) :
    hasYearMarker t = true ∧ hasSemesterMarker t = true ∧
      hasCreditKeyword t = true ∧ hasTotalPattern t = true := by
  have ht : isCurriculumTable t = true := (classify_eq_table_iff t p).mp h1
  unfold isCurriculumTable at ht
  have hmc : decide (3 ≤ countCodes8 t) = false := by
    simp only [decide_eq_false_iff_not]; omega
  rw [hmc] at ht
  revert ht
  cases hY : hasYearMarker t <;> cases hS : hasSemesterMarker t <;>
    cases hC : hasCreditKeyword t <;> cases hT : hasTotalPattern t <;>
      simp_all

def tableNoCodesText : Str := "ปีที่ 1 ภาคการศึกษาที่ 1 รวม 21 หน่วยกิต".toList

/-- C2 counterexample: a text with year/semester markers, the credit
keyword and a total pattern but zero 8-digit codes is still classified
curriculum_table, refuting the claim that table classification implies at
least 3 code positions. -/
theorem c2_counterexample :
    classify tableNoCodesText none = ContentType.curriculum_table ∧
      countCodes8 tableNoCodesText = 0 := by decide

/-- Witness for the amended C2 theorem at a concrete table text. -/
theorem c2_amended_witness :
    hasYearMarker tableNoCodesText = true ∧
      hasSemesterMarker tableNoCodesText = true ∧
      hasCreditKeyword tableNoCodesText = true ∧
      hasTotalPattern tableNoCodesText = true :=
  c2_amended tableNoCodesText none (by decide) (by decide)

/-- Witness for C4 at a concrete table text. -/
theorem c4_witness :
    classify tableNoCodesText none = ContentType.curriculum_table :=
  (c4_table_decision tableNoCodesText none).1.mpr (by decide)

/-- C5 counterexample: on empty text with page number 50 the classifier
returns appendix, not general, because the late-page signal alone
satisfies the appendix test. -/
theorem c5_counterexample :
    classify [] (some 50) = ContentType.appendix ∧
      ContentType.appendix ≠ ContentType.general := by decide

/-- C5 (amended): on empty text the classifier returns general unless
the page number exceeds the late-page threshold 45, in which case it
returns appendix. -/
theorem c5_amended (p : Option Nat) :
    classify [] p =
      if isLatePage p then ContentType.appendix else ContentType.general := by
  have h1 : isCurriculumTable [] = false := by decide
  have h2 : isCourseDescription [] = false := by decide
  have h3 : hasAppendixKeyword [] = false := by decide
  unfold classify isAppendix
  rw [h1, h2]
  cases hp : isLatePage p <;> simp_all [countCodes8, countCodes8Aux]



theorem foldl_code_aux (code : Str) (qy qs : Option Str) (docs : List RagDoc) :
    ∀ acc, docs.foldl (filterStep (some code) qy qs) acc =
      (docs.filter (fun d => docMatchesCode code d)).reverse ++ acc := by
  induction docs with
  | nil => intro acc; simp
  | cons d ds ih =>
    intro acc
    simp only [List.foldl_cons, filterStep]
    by_cases h : docMatchesCode code d = true
    · simp [h, ih]
    · simp [h, ih]

theorem filterDocs_code_eq (code : Str) (qy qs : Option Str) (docs : List RagDoc) :
    filterDocs (some code) qy qs docs =
      (docs.filter (fun d => docMatchesCode code d)).reverse := by
  simpa [filterDocs] using foldl_code_aux code qy qs docs []

/-- C6: when an item code is parsed from the query, the filtering pass
includes a candidate exactly when the canonical code occurs in its text
(contiguous, space-separated or dash-separated) or in its course-code
metadata, and the result consists solely of code-matched candidates
(front-inserted), so every code match precedes every non-match. -/
theorem c6_code_filter (q code : Str) (docs : List RagDoc)
    (h : parseQuestionCode q = some code) :
    filterDocs (parseQuestionCode q) (parseQuestionYear q)
        (parseQuestionSemester q) docs =
      (docs.filter (fun d => docMatchesCode code d)).reverse ∧
    (∀ d : RagDoc,
      d ∈ filterDocs (parseQuestionCode q) (parseQuestionYear q)
        (parseQuestionSemester q) docs ↔
      d ∈ docs ∧ docMatchesCode code d = true) ∧
    (∀ d ∈ filterDocs (parseQuestionCode q) (parseQuestionYear q)
        (parseQuestionSemester q) docs, docMatchesCode code d = true) := by
  rw [h, filterDocs_code_eq]
  refine ⟨rfl, ?_, ?_⟩
  · intro d
    simp [List.mem_filter]
  · intro d hd
    simp [List.mem_filter] at hd
    exact hd.2

def qCode6 : Str := "05506231 คืออะไร".toList

def code6 : Str := "05506231".toList

def docMatch6 : RagDoc := ⟨"รหัสวิชา 05506231 การเขียนโปรแกรม".toList, none, none, []⟩

def docOther6 : RagDoc := ⟨"อาหารไทยที่มีชื่อเสียง".toList, none, none, []⟩

def docs6 : List RagDoc := [docOther6, docMatch6]

/-- Witness for C6 at a concrete code query and candidate list. -/
theorem c6_witness :
    filterDocs (parseQuestionCode qCode6) (parseQuestionYear qCode6)
        (parseQuestionSemester qCode6) docs6 =
      (docs6.filter (fun d => docMatchesCode code6 d)).reverse :=
  (c6_code_filter qCode6 code6 docs6 (by decide)).1



theorem dedup_sublist (l : List RagDoc) (seen : List Str) :
    (dedupDocs l seen).Sublist l := by
  induction l generalizing seen with
  | nil => simp [dedupDocs]
  | cons d ds ih =>
    unfold dedupDocs
    by_cases h : seen.contains (docSig d) = true
    · rw [if_pos h]
      exact (ih seen).cons d
    · rw [if_neg h]
      exact (ih _).cons₂ d

theorem dedup_filter_of_seen (l : List RagDoc) (seen : List Str) (s : Str)
    (hs : s ∈ seen) :
    (dedupDocs l seen).filter (fun d => decide (docSig d = s)) = [] := by
  induction l generalizing seen with
  | nil => simp [dedupDocs]
  | cons d ds ih =>
    unfold dedupDocs
    by_cases h : seen.contains (docSig d) = true
    · rw [if_pos h]
      exact ih seen hs
    · rw [if_neg h]
      have hds : ¬ docSig d = s := by
        intro he
        rw [he] at h
        exact h (by simpa using hs)
      simp only [List.filter_cons, decide_eq_true_eq, hds, if_false]
      exact ih _ (List.mem_cons_of_mem _ hs)

theorem dedup_filter_take (l : List RagDoc) (seen : List Str) (s : Str)
    (hs : ¬ s ∈ seen) :
    (dedupDocs l seen).filter (fun d => decide (docSig d = s)) =
      (l.filter (fun d => decide (docSig d = s))).take 1 := by
  induction l generalizing seen with
  | nil => simp [dedupDocs]
  | cons d ds ih =>
    unfold dedupDocs
    by_cases h : seen.contains (docSig d) = true
    · rw [if_pos h]
      have hds : ¬ docSig d = s := by
        intro he
        exact hs (he ▸ (by simpa using h))
      simp only [List.filter_cons, decide_eq_true_eq, hds, if_false]
      exact ih seen hs
    · rw [if_neg h]
      by_cases hds : docSig d = s
      · subst hds
        have hnil : (dedupDocs ds (docSig d :: seen)).filter
            (fun x => decide (docSig x = docSig d)) = [] :=
          dedup_filter_of_seen ds _ _ (List.mem_cons_self _ _)
        rw [List.filter_cons_of_pos (by simp),
          List.filter_cons_of_pos (by simp), hnil]
        simp
      · have hs' : ¬ s ∈ docSig d :: seen := by
          intro hmem
          rcases List.mem_cons.mp hmem with h1 | h1
          · exact hds h1.symm
          · exact hs h1
        simp only [List.filter_cons, decide_eq_true_eq, hds, if_false]
        exact ih _ hs'

/-- C7: for two fragments at positions i earlier than j with identical
first-100-character text, deduplication outputs a sublist of the input
(order preserved) in which exactly one fragment of that shared signature
survives, namely the earliest occurrence in the list. -/
theorem c7_dedup (l : List RagDoc) (i j : Nat) (hi : i < l.length)
    (hj : j < l.length) (_hij : i < j)
    (hpfx : (l.get ⟨i, hi⟩).page_content.take 100 =
      (l.get ⟨j, hj⟩).page_content.take 100) :
    (dedupDocs l []).Sublist l ∧
    (dedupDocs l []).filter
        (fun d => decide (docSig d = docSig (l.get ⟨j, hj⟩))) =
      (l.filter (fun d => decide (docSig d = docSig (l.get ⟨i, hi⟩)))).take 1 ∧
    ((l.filter (fun d => decide (docSig d = docSig (l.get ⟨i, hi⟩)))).take 1).length
      = 1 := by
  have hsig : docSig (l.get ⟨i, hi⟩) = docSig (l.get ⟨j, hj⟩) := by
    unfold docSig
    rw [hpfx]
  refine ⟨dedup_sublist l [], ?_, ?_⟩
  · rw [← hsig]
    exact dedup_filter_take l [] _ (by simp)
  · have hmem : l.get ⟨i, hi⟩ ∈
        l.filter (fun d => decide (docSig d = docSig (l.get ⟨i, hi⟩))) :=
      List.mem_filter.mpr ⟨l.get_mem i hi, by simp⟩
    match hfl : l.filter (fun d => decide (docSig d = docSig (l.get ⟨i, hi⟩))) with
    | [] => rw [hfl] at hmem; cases hmem
    | a :: as => simp

def dDupA : RagDoc := ⟨"หลักสูตรวิทยาการคอมพิวเตอร์".toList, some "1".toList, none, []⟩

def dDupB : RagDoc := ⟨"หลักสูตรวิทยาการคอมพิวเตอร์".toList, none, some "2".toList, []⟩

def docs7 : List RagDoc := [dDupA, dDupB]

/-- Witness for C7 on a two-element duplicate list. -/
theorem c7_witness :
    (dedupDocs docs7 []).Sublist docs7 ∧
    (dedupDocs docs7 []).filter (fun d => decide (docSig d = docSig dDupB)) =
      (docs7.filter (fun d => decide (docSig d = docSig dDupA))).take 1 ∧
    ((docs7.filter (fun d => decide (docSig d = docSig dDupA))).take 1).length
      = 1 :=
  c7_dedup docs7 0 1 (by decide) (by decide) (by decide) (by decide)



theorem dedup_ne_nil (l : List RagDoc) (h : l ≠ []) : dedupDocs l [] ≠ [] := by
  match l with
  | [] => exact absurd rfl h
  | d :: ds =>
    unfold dedupDocs
    rw [if_neg (by simp)]
    exact List.cons_ne_nil _ _

theorem numChunks_pos (q : Str) : 0 < numChunks q := by
  unfold numChunks
  split_ifs <;> norm_num

theorem take_dedup_ne_nil (n : Nat) (hn : 0 < n) (l : List RagDoc)
    (hl : l ≠ []) : (dedupDocs l []).take n ≠ [] := by
  obtain ⟨m, hm⟩ := Nat.exists_eq_succ_of_ne_zero (Nat.pos_iff_ne_zero.mp hn)
  cases hdd : dedupDocs l [] with
  | nil => exact absurd hdd (dedup_ne_nil l hl)
  | cons a as =>
    rw [hm, List.take_succ_cons]
    exact List.cons_ne_nil _ _

/-- C3: for a non-empty candidate list the filtering step never hands an
empty list to context assembly: an empty filter result falls back to the
original candidates, deduplication keeps at least the first element, and
the truncation count is positive. -/
theorem c3_nonempty (q : Str) (docs : List RagDoc) (h : docs ≠ []) :
    selectRelevantDocs q docs ≠ [] := by
  have h1 : (if (filterDocs (parseQuestionCode q) (parseQuestionYear q)
      (parseQuestionSemester q) docs).isEmpty then docs
    else filterDocs (parseQuestionCode q) (parseQuestionYear q)
      (parseQuestionSemester q) docs) ≠ [] := by
    split_ifs with he
    · exact h
    · intro hcontra
      rw [hcontra] at he
      exact he rfl
  show (dedupDocs (if (filterDocs (parseQuestionCode q) (parseQuestionYear q)
      (parseQuestionSemester q) docs).isEmpty then docs
    else filterDocs (parseQuestionCode q) (parseQuestionYear q)
      (parseQuestionSemester q) docs) []).take (numChunks q) ≠ []
  exact take_dedup_ne_nil _ (numChunks_pos q) _ h1

def q3gen : Str := "เมืองหลวงของไทยคืออะไร".toList

def d3gen : RagDoc := ⟨"กรุงเทพมหานครเป็นเมืองหลวง".toList, none, none, []⟩

/-- Witness for C3 on a generic question and a single candidate. -/
theorem c3_witness : selectRelevantDocs q3gen [d3gen] ≠ [] :=
  c3_nonempty q3gen [d3gen] (List.cons_ne_nil _ _)

/-- C9: the deduplicated list is truncated to at most 5 fragments; the
cap is 5 exactly when the query has a year marker, a semester marker or
broad-scope phrasing, and 3 otherwise. -/
theorem c9_truncation (q : Str) (docs : List RagDoc) :
    (selectRelevantDocs q docs).length ≤ 5 ∧
    (((parseQuestionYear q).isSome || (parseQuestionSemester q).isSome ||
        containsSub litWhatAll q || containsSub litAllOf q) = true →
      numChunks q = 5) ∧
    (((parseQuestionYear q).isSome || (parseQuestionSemester q).isSome ||
        containsSub litWhatAll q || containsSub litAllOf q) = false →
      numChunks q = 3) := by
  refine ⟨?_, ?_, ?_⟩
  · unfold selectRelevantDocs
    have h5 : numChunks q ≤ 5 := by
      unfold numChunks
      split_ifs <;> norm_num
    calc (List.take (numChunks q) _).length
        ≤ numChunks q := by rw [List.length_take]; exact min_le_left _ _
      _ ≤ 5 := h5
  · intro hb
    unfold numChunks
    rw [if_pos hb]
  · intro hb
    unfold numChunks
    rw [if_neg (by rw [hb]; exact Bool.false_ne_true)]

def q9broad : Str := "ปีที่ 1 มีวิชาอะไรบ้าง".toList

/-- Witness for C9 on a broad-scope query. -/
theorem c9_witness :
    (selectRelevantDocs q9broad [d3gen]).length ≤ 5 ∧ numChunks q9broad = 5 :=
  ⟨(c9_truncation q9broad [d3gen]).1,
    (c9_truncation q9broad [d3gen]).2.1 (by decide)⟩

theorem parts_hint_eq (docs : List RagDoc) (total : Nat) :
    ∀ p ∈ assembleParts docs total, p.2.1 = hintOf p.1 := by
  induction docs generalizing total with
  | nil => simp [assembleParts]
  | cons d ds ih =>
    unfold assembleParts
    by_cases h : maxContextChars - total = 0
    · simp [h]
    · rw [if_neg h]
      intro p hp
      rcases List.mem_cons.mp hp with h1 | h1
      · rw [h1]
      · exact ih _ p h1

/-- C10: an emitted context part carries a non-empty metadata hint
exactly when its fragment has (truthy) year and semester fields, and the
hint is then the bracketed year/semester line; otherwise the part is the
bare (possibly truncated) content. -/
theorem c10_hint (docs : List RagDoc) (d : RagDoc) (hint content : Str)
    (hmem : (d, hint, content) ∈ contextParts docs) :
    (hint ≠ [] ↔ truthyOpt d.year = true ∧ truthyOpt d.semester = true) ∧
    (truthyOpt d.year = true ∧ truthyOpt d.semester = true →
      hint = litHintOpen ++ d.year.getD [] ++ litHintMid ++
        d.semester.getD [] ++ litHintClose) := by
  have hh : hint = hintOf d := parts_hint_eq docs 0 _ hmem
  subst hh
  unfold hintOf
  by_cases hy : truthyOpt d.year = true <;>
    by_cases hs : truthyOpt d.semester = true <;>
      simp [hy, hs, litHintOpen]

def dHint10 : RagDoc :=
  ⟨"ตารางเรียน".toList, some "1".toList, some "2".toList, []⟩

/-- Witness for C10 on a fragment carrying both metadata fields. -/
theorem c10_witness :
    (hintOf dHint10 ≠ [] ↔
      truthyOpt dHint10.year = true ∧ truthyOpt dHint10.semester = true) ∧
    (truthyOpt dHint10.year = true ∧ truthyOpt dHint10.semester = true →
      hintOf dHint10 = litHintOpen ++ dHint10.year.getD [] ++ litHintMid ++
        dHint10.semester.getD [] ++ litHintClose) :=
  c10_hint [dHint10] dHint10 (hintOf dHint10)
    (dHint10.page_content.take 2000) (by decide)



theorem assemble_content_le (docs : List RagDoc) (total : Nat) :
    partsContentLength (assembleParts docs total) ≤ maxContextChars - total := by
  induction docs generalizing total with
  | nil => simp [assembleParts, partsContentLength]
  | cons d ds ih =>
    unfold assembleParts
    by_cases h : maxContextChars - total = 0
    · simp [h, partsContentLength]
    · rw [if_neg h]
      have hc : (d.page_content.take (maxContextChars - total)).length ≤
          maxContextChars - total := by
        rw [List.length_take]
        exact min_le_left _ _
      have hrec := ih (total + (hintOf d).length +
        (d.page_content.take (maxContextChars - total)).length)
      unfold partsContentLength at hrec ⊢
      simp only [List.map_cons, List.sum_cons]
      omega

/-- C1 (amended): the loop truncates each fragment to the remaining
budget, so the total fragment-content characters of the assembled
context never exceed the 2000-character budget; hint lines and
separators are emitted on top of that accounting. -/
theorem c1_amended (docs : List RagDoc) :
    partsContentLength (contextParts docs) ≤ maxContextChars := by
  have h := assemble_content_le docs 0
  simpa [contextParts] using h

def litOne : Str := "1".toList

def bigTableDoc : RagDoc :=
  ⟨List.replicate 2000 'a', some litOne, some litOne, []⟩

/-- C1 counterexample: a single budget-filling fragment carrying
year/semester metadata produces an assembled context of 2027 characters,
exceeding the 2000-character budget, because the metadata hint line is
not charged against the budget before emission. -/
theorem c1_counterexample : 2000 < (assembledContext [bigTableDoc]).length := by
  have hparts : contextParts [bigTableDoc] =
      [(bigTableDoc, hintOf bigTableDoc, bigTableDoc.page_content.take 2000)] := by
    simp [contextParts, assembleParts, maxContextChars]
  have hctx : assembledContext [bigTableDoc] =
      hintOf bigTableDoc ++ bigTableDoc.page_content.take 2000 := by
    rw [assembledContext, hparts]
    rfl
  rw [hctx, List.length_append]
  have h1 : (hintOf bigTableDoc).length = 27 := by decide
  have h2 : (bigTableDoc.page_content.take 2000).length = 2000 := by
    show ((List.replicate 2000 'a').take 2000).length = 2000
    rw [List.length_take, List.length_replicate]
    omega
  omega



theorem digit_not_space (c : Char) (h : isDigitChar c = true) :
    isSpaceChar c = false := by
  unfold isDigitChar at h
  unfold isSpaceChar
  simp only [Bool.and_eq_true, decide_eq_true_eq] at h
  simp only [Bool.or_eq_false_iff, decide_eq_false_iff_not]
  omega

theorem takeDigits_append (a r : Str) (h : ∀ c ∈ a, isDigitChar c = true) :
    takeDigits a.length (a ++ r) = some (a, r) := by
  induction a with
  | nil => rfl
  | cons c t ih =>
    simp only [List.length_cons, List.cons_append]
    unfold takeDigits
    rw [if_pos (h c (List.mem_cons_self _ _)),
      ih (fun x hx => h x (List.mem_cons_of_mem _ hx))]

theorem dropWhile_space_of_digits (b : Str) (hb : 0 < b.length)
    (hdb : ∀ c ∈ b, isDigitChar c = true) :
    b.dropWhile isSpaceChar = b := by
  cases b with
  | nil => rfl
  | cons bc bt =>
    rw [List.dropWhile_cons,
      digit_not_space bc (hdb bc (List.mem_cons_self _ _))]
    simp

theorem qCodeAlt1_contiguous (a b : Str) (ha : a.length = 4) (hb : b.length = 4)
    (hda : ∀ c ∈ a, isDigitChar c = true) (hdb : ∀ c ∈ b, isDigitChar c = true) :
    qCodeAlt1 (a ++ b) = some (a ++ b) := by
  have h1 : takeDigits 4 (a ++ b) = some (a, b) := by
    rw [← ha]
    exact takeDigits_append a b hda
  have hdropb : b.dropWhile isSpaceChar = b :=
    dropWhile_space_of_digits b (by omega) hdb
  have h2 : takeDigits 4 b = some (b, []) := by
    have h := takeDigits_append b [] hdb
    rw [List.append_nil] at h
    rw [← hb]
    exact h
  unfold qCodeAlt1
  rw [h1]
  simp [hdropb, h2, endBoundaryOk]

theorem qCodeAlt1_spaced (a b : Str) (ha : a.length = 4) (hb : b.length = 4)
    (hda : ∀ c ∈ a, isDigitChar c = true) (hdb : ∀ c ∈ b, isDigitChar c = true) :
    qCodeAlt1 (a ++ ' ' :: b) = some (a ++ b) := by
  have h1 : takeDigits 4 (a ++ ' ' :: b) = some (a, ' ' :: b) := by
    rw [← ha]
    exact takeDigits_append a (' ' :: b) hda
  have hdropb : (' ' :: b).dropWhile isSpaceChar = b := by
    rw [List.dropWhile_cons]
    simp only [show isSpaceChar ' ' = true from rfl, if_true]
    exact dropWhile_space_of_digits b (by omega) hdb
  have h2 : takeDigits 4 b = some (b, []) := by
    have h := takeDigits_append b [] hdb
    rw [List.append_nil] at h
    rw [← hb]
    exact h
  unfold qCodeAlt1
  rw [h1]
  simp [hdropb, h2, endBoundaryOk]

theorem searchQCode_head (prev : Option Char) (l r : Str)
    (hne : l ≠ []) (hq : qCodeAt prev l = some r) : searchQCode prev l = some r := by
  cases l with
  | nil => exact absurd rfl hne
  | cons c t =>
    unfold searchQCode
    rw [hq]

/-- C8 (amended): the query-side parser accepts the contiguous 8-digit
form and the space-separated 4+4 form of an item code and resolves both
to the same canonical 8-digit code; the dash-separated form is not
recognised by the query-side regex. -/
theorem c8_amended (a b : Str) (ha : a.length = 4) (hb : b.length = 4)
    (hda : ∀ c ∈ a, isDigitChar c = true) (hdb : ∀ c ∈ b, isDigitChar c = true) :
    parseQuestionCode (a ++ b) = some (a ++ b) ∧
    parseQuestionCode (a ++ ' ' :: b) = some (a ++ b) := by
  have hane : a ≠ [] := by
    intro hcontra
    rw [hcontra] at ha
    simp at ha
  constructor
  · apply searchQCode_head
    · intro hcontra
      exact hane (List.append_eq_nil.mp hcontra).1
    · unfold qCodeAt
      rw [if_pos (show nonWordOpt none = true from rfl),
        qCodeAlt1_contiguous a b ha hb hda hdb]
  · apply searchQCode_head
    · intro hcontra
      exact hane (List.append_eq_nil.mp hcontra).1
    · unfold qCodeAt
      rw [if_pos (show nonWordOpt none = true from rfl),
        qCodeAlt1_spaced a b ha hb hda hdb]

def lit0550 : Str := "0550".toList

def lit6231 : Str := "6231".toList

/-- Witness for the amended C8 theorem at the code 05506231. -/
theorem c8_amended_witness :
    parseQuestionCode (lit0550 ++ lit6231) = some (lit0550 ++ lit6231) ∧
    parseQuestionCode (lit0550 ++ ' ' :: lit6231) = some (lit0550 ++ lit6231) :=
  c8_amended lit0550 lit6231 (by decide) (by decide) (by decide) (by decide)

def dashQuery : Str := "0550-6231".toList

/-- C8 counterexample: a dash-separated query code is not parsed at all,
refuting the claim that the query-side parser accepts the dash-separated
4+4 form. -/
theorem c8_counterexample : parseQuestionCode dashQuery = none := by decide


end RagSpec
